import Mathlib

/-!
Shallow embedding of `scripts/update_stories.py` from the
`nonmarket_ethics_scholarship_feed` repository, together with theorems
settling the specification claims about it.

The Python pipeline fetches Crossref work metadata for a fixed query list,
classifies each item by keyword matching (sentiment, government/nonprofit
category, business-only exclusion), deduplicates by DOI-or-URL, sorts by
the ISO published-at string descending, truncates each category to 60
entries and renders an output document.

Modelling conventions:
* Python strings are Lean `String`s; per-character operations work on
  `String.data` (`List Char`).
* The regex class `\s` and `str.strip` are modelled over the ASCII
  whitespace characters; the regex class `\w` (for `\b` boundaries) is
  modelled as ASCII alphanumerics plus underscore.
* `str.lower` is modelled as character-wise `Char.toLower` (ASCII).
* `datetime` values are explicit records; `datetime.now(timezone.utc)` is
  passed in as an explicit `now` parameter.
* `sorted(..., reverse=True)` (a stable descending sort) is embedded as a
  stable insertion sort over the same comparison key; a stable sort's
  output is uniquely determined by the key, so this is the same function.
* The network fetch and the JSON decode of a response payload are external
  effects; a per-query run outcome is given to `collect_stories` as data:
  the fetch either raises, or returns a payload that either fails to decode
  as JSON (`json.loads` raises) or yields a list of parsed items.
-/

namespace EthicsFeed

/-! ### Python string primitives -/

/-- The ASCII characters matched by the regex class `\s` and stripped by
`str.strip`. -/
def isPySpace (c : Char) : Bool :=
  c == ' ' || c == '\t' || c == '\n' || c == '\x0b' || c == '\x0c' || c == '\r'

/-- Word characters for the regex `\b` boundary (the ASCII part of `\w`). -/
def isWordChar (c : Char) : Bool :=
  c.isAlphanum || c == '_'

/-- One pass of `re.sub(r"\s+", " ", s)`: every maximal run of whitespace
becomes a single space.  `prevWs` records whether the previous character
belonged to a whitespace run whose single `' '` has already been emitted. -/
def collapseWsAux (prevWs : Bool) : List Char → List Char
  | [] => []
  | c :: rest =>
    if isPySpace c then
      if prevWs then collapseWsAux true rest
      else ' ' :: collapseWsAux true rest
    else c :: collapseWsAux false rest

/-- `re.sub(r"\s+", " ", s)`. -/
def collapseWs (l : List Char) : List Char :=
  collapseWsAux false l

/-- `str.lstrip()` restricted to ASCII whitespace. -/
def lstripWs (l : List Char) : List Char :=
  l.dropWhile isPySpace

/-- `str.rstrip()` restricted to ASCII whitespace. -/
def rstripWs (l : List Char) : List Char :=
  (l.reverse.dropWhile isPySpace).reverse

/-- `re.sub(r"\s+", " ", s).strip()` — the cleaning step of `short_title`. -/
def cleanWs (s : String) : String :=
  ⟨rstripWs (lstripWs (collapseWs s.data))⟩

/-- `str.lower()` (character-wise, ASCII). -/
def pyLower (s : String) : String :=
  ⟨s.data.map Char.toLower⟩

/-- The `\b` test of the regex engine between two adjacent positions:
it holds when exactly one side is a word character (a missing side counts
as a non-word character). -/
def wordBoundary (left : Option Char) (right : Option Char) : Bool :=
  match left, right with
  | none, none => false
  | none, some c => isWordChar c
  | some c, none => isWordChar c
  | some a, some b => isWordChar a != isWordChar b

/-- `re.search(r"\b" + re.escape(term) + r"\b", text)` succeeding at start
position `i`: the literal term occurs at `i` and both ends sit on a word
boundary. -/
def matchWordAt (term text : List Char) (i : Nat) : Bool :=
  ((text.drop i).take term.length == term)
  && wordBoundary (if i == 0 then none else text.get? (i - 1)) term.head?
  && wordBoundary term.getLast? (text.get? (i + term.length))

/-- `re.search(r"\b" + re.escape(term) + r"\b", text)` (anywhere). -/
def searchWord (term text : List Char) : Bool :=
  (List.range (text.length + 1)).any (matchWordAt term text)

/-- `contains_any(text, terms)` from the source: true iff some term matches
in `text` with word boundaries on both sides. -/
def contains_any (text : String) (terms : List String) : Bool :=
  terms.any (fun term => searchWord term.data text.data)

/-! ### Keyword configuration (module-level constants of the source) -/

def POSITIVE_KEYWORDS : List String :=
  ["anti-corruption", "anti corruption", "anticorruption", "anti graft",
   "anti-graft", "anti bribery", "anti-bribery", "anti fraud", "anti-fraud",
   "anti-greed", "anti greed", "integrity", "reform", "transparency",
   "oversight", "accountability", "improve", "improved", "improves",
   "cleaned up", "cleared", "acquitted", "new ethics rules", "adopts ethics"]

def NEGATIVE_KEYWORDS : List String :=
  ["ethics", "unethical", "anti-ethics", "corruption", "graft", "greed",
   "bribery", "bribe", "fraud", "embezzlement", "kickback",
   "money laundering", "scandal", "probe", "investigation", "charged",
   "indicted", "convicted", "arrested", "misuse", "misconduct"]

def GOVERNMENT_TERMS : List String :=
  ["government", "public", "municipal", "city", "state", "federal",
   "minister", "senate", "congress", "parliament", "mayor", "governor",
   "agency", "department", "county"]

def NONPROFIT_TERMS : List String :=
  ["nonprofit", "non-profit", "non profit", "charity", "charitable",
   "foundation", "ngo", "non-governmental", "civil society",
   "not-for-profit", "not for profit", "philanthropy", "donor-funded"]

def BUSINESS_TERMS : List String :=
  ["business", "corporate", "corporation", "company", "earnings",
   "quarterly results", "stock", "share price", "ipo", "merger",
   "acquisition", "ceo", "investor", "wall street"]

def MAX_STORIES_PER_COLUMN : Nat := 60

/-! ### Classifier -/

/-- `short_title(title, limit=95)` from the source.  Note: the literal
appended in the truncation branch of the source file consists of the three
characters U+00E2, U+20AC, U+00A6 (a mis-encoded ellipsis), reproduced
here exactly. -/
def short_title (title : String) (limit : Nat := 95) : String :=
  let cleaned := cleanWs title
  if cleaned.length ≤ limit then cleaned
  else ⟨rstripWs (cleaned.data.take (limit - 1))⟩ ++ "â€¦"

/-- `classify_sentiment(text)` from the source. -/
def classify_sentiment (text : String) : Option String :=
  if contains_any text NEGATIVE_KEYWORDS then some "negative"
  else if contains_any text POSITIVE_KEYWORDS then some "positive"
  else none

/-- `should_skip_business_only(text)` from the source. -/
def should_skip_business_only (text : String) : Bool :=
  let has_business := contains_any text BUSINESS_TERMS
  let has_relevant_domain :=
    contains_any text GOVERNMENT_TERMS || contains_any text NONPROFIT_TERMS
  has_business && !has_relevant_domain

/-! ### Dates (`datetime` with `tzinfo=timezone.utc`) -/

/-- A `datetime` value with UTC timezone.  Dates built by `parse_date_parts`
have a zero time-of-day; `datetime.now(timezone.utc)` may carry any. -/
structure PyDateTime where
  year : Int
  month : Int
  day : Int
  hour : Int := 0
  minute : Int := 0
  second : Int := 0
  microsecond : Int := 0
deriving DecidableEq

def isLeapYear (y : Int) : Bool :=
  y % 4 == 0 && (y % 100 != 0 || y % 400 == 0)

def daysInMonth (y m : Int) : Int :=
  if m == 2 then (if isLeapYear y then 29 else 28)
  else if m == 4 || m == 6 || m == 9 || m == 11 then 30
  else 31

/-- The condition under which `datetime(year, month, day)` does not raise
`ValueError` (`MINYEAR = 1`, `MAXYEAR = 9999`). -/
def validYMD (y m d : Int) : Bool :=
  1 ≤ y && y ≤ 9999 && 1 ≤ m && m ≤ 12 && 1 ≤ d && d ≤ daysInMonth y m

/-- Zero-padded decimal rendering (arguments here are always ≥ 0). -/
def padNum (width : Nat) (n : Int) : String :=
  (if n < 0 then "-" else "")
    ++ ⟨List.replicate (width - (toString n.natAbs).length) '0'⟩
    ++ toString n.natAbs

/-- `datetime.isoformat()` for a UTC-aware value: the `.ffffff` part is
emitted only when the microsecond field is nonzero, and the offset is
always `+00:00`. -/
def pyIsoformat (d : PyDateTime) : String :=
  padNum 4 d.year ++ "-" ++ padNum 2 d.month ++ "-" ++ padNum 2 d.day ++ "T"
    ++ padNum 2 d.hour ++ ":" ++ padNum 2 d.minute ++ ":" ++ padNum 2 d.second
    ++ (if d.microsecond == 0 then "" else "." ++ padNum 6 d.microsecond)
    ++ "+00:00"

/-! ### Crossref date fields

A value stored under one of the four date keys of a Crossref work entry, as
`parse_date_parts` discriminates it: not a dict at all, a dict without a
usable `date-parts` entry, or a dict whose `date-parts` is a list whose
first element is (or is not) a list of integers. -/

inductive CrossrefDateEntry where
  | notList
  | nums (xs : List Int)
deriving DecidableEq

inductive CrossrefDateParts where
  | notList
  | list (entries : List CrossrefDateEntry)
deriving DecidableEq

inductive CrossrefDateVal where
  /-- a non-dict value; `truthy` records its Python truthiness -/
  | notDict (truthy : Bool)
  /-- `{}` — falsy, and has no `date-parts` -/
  | emptyDict
  /-- a non-empty dict without a `date-parts` key -/
  | dictNoParts
  /-- a (necessarily non-empty, hence truthy) dict with a `date-parts` key -/
  | dictParts (dp : CrossrefDateParts)
deriving DecidableEq

/-- Python truthiness of `item.get(key)` for a date field (`none` models a
missing key or a stored `None`). -/
def pyTruthy : Option CrossrefDateVal → Bool
  | none => false
  | some (.notDict t) => t
  | some .emptyDict => false
  | some .dictNoParts => true
  | some (.dictParts _) => true

/-- `parse_date_parts(raw)` from the source.  `now` is the value of
`datetime.now(timezone.utc)`. -/
def parse_date_parts (now : PyDateTime) : Option CrossrefDateVal → PyDateTime
  | none => now
  | some (.notDict _) => now
  | some .emptyDict => now
  | some .dictNoParts => now
  | some (.dictParts .notList) => now
  | some (.dictParts (.list [])) => now
  | some (.dictParts (.list (.notList :: _))) => now
  | some (.dictParts (.list (.nums [] :: _))) => now
  | some (.dictParts (.list (.nums (y :: rest) :: _))) =>
    let month := rest.getD 0 1
    let day := rest.getD 1 1
    if validYMD y month day then
      if y < 1900 || y > now.year + 1 then now
      else { year := y, month := month, day := day }
    else now

/-- The four date fields of one Crossref work entry. -/
structure CrossrefWorkDates where
  publishedOnline : Option CrossrefDateVal
  publishedPrint : Option CrossrefDateVal
  published : Option CrossrefDateVal
  created : Option CrossrefDateVal
deriving DecidableEq

/-- The `published_at` resolution chain of `parse_crossref_items`
(source lines 259-267): try `published-online`, then `published-print`,
then `published`, each used when truthy, else fall back to `created`. -/
def resolve_published_at (now : PyDateTime) (w : CrossrefWorkDates) : PyDateTime :=
  if pyTruthy w.publishedOnline then parse_date_parts now w.publishedOnline
  else if pyTruthy w.publishedPrint then parse_date_parts now w.publishedPrint
  else if pyTruthy w.published then parse_date_parts now w.published
  else parse_date_parts now w.created

/-! ### Stories -/

/-- The intermediate dict appended by `parse_crossref_items` for one work
entry (its `published_at` holds the already-resolved datetime). -/
structure RawItem where
  title : String
  url : String
  doi : String
  published_at : PyDateTime
  source : String
  abstract : String
deriving DecidableEq

/-- The `Story` dataclass. -/
structure Story where
  title : String
  short_title : String
  url : String
  source : String
  published_at : String
  sentiment : String
  government : Bool
  nonprofit : Bool
deriving DecidableEq

/-- `normalize_story(raw)` from the source. -/
def normalize_story (raw : RawItem) : Option Story :=
  if raw.title == "" || raw.url == "" then none
  else
    let text := pyLower (raw.title ++ " " ++ raw.source ++ " " ++ raw.abstract)
    if should_skip_business_only text then none
    else
      match classify_sentiment text with
      | none => none
      | some sentiment =>
        let is_government := contains_any text GOVERNMENT_TERMS
        let is_nonprofit := contains_any text NONPROFIT_TERMS
        if !is_government && !is_nonprofit then none
        else some
          { title := raw.title
            short_title := short_title raw.title
            url := raw.url
            source := raw.source
            published_at := pyIsoformat raw.published_at
            sentiment := sentiment
            government := is_government
            nonprofit := is_nonprofit }

/-! ### Aggregation (`collect_stories`) -/

/-- `item.get("doi") or item["url"]` — the deduplication key. -/
def dedup_key (item : RawItem) : String :=
  if item.doi == "" then item.url else item.doi

/-- Python string comparison (`<=`) on the underlying code points. -/
def pyCharsLe : List Char → List Char → Bool
  | [], _ => true
  | _ :: _, [] => false
  | a :: as, b :: bs =>
    if a < b then true
    else if b < a then false
    else pyCharsLe as bs

/-- Python string comparison `a <= b`. -/
def pyStrLe (a b : String) : Bool :=
  pyCharsLe a.data b.data

/-- Insert a story into a list already sorted descending by
`published_at`, placing it in front of the first entry whose key is `≤`
its own (so that, inserting original elements back to front, entries with
equal keys keep their original order — the stable descending sort). -/
def insertStoryDesc (s : Story) : List Story → List Story
  | [] => [s]
  | t :: rest =>
    if pyStrLe t.published_at s.published_at then s :: t :: rest
    else t :: insertStoryDesc s rest

/-- `sorted(collected, key=lambda s: s.published_at, reverse=True)` —
Python's stable descending sort, embedded as stable insertion sort. -/
def sortStoriesDesc (l : List Story) : List Story :=
  l.foldr insertStoryDesc []

/-- The per-item loop body of `collect_stories`, threading the
`seen_keys` set (as a list) and the `collected` accumulator. -/
def collectItemsAux (seen : List String) (acc : List Story) :
    List RawItem → List String × List Story
  | [] => (seen, acc)
  | item :: rest =>
    if seen.contains (dedup_key item) then collectItemsAux seen acc rest
    else
      match normalize_story item with
      | none => collectItemsAux seen acc rest
      | some story =>
        collectItemsAux (dedup_key item :: seen) (acc ++ [story]) rest

/-- Deduplicate, classify and sort one flat item sequence (the items of
all successfully parsed queries, in query order). -/
def collect_from_items (items : List RawItem) : List Story :=
  sortStoriesDesc (collectItemsAux [] [] items).2

/-- What decoding one fetched response payload yields: `json.loads`
either raises (`malformed`) or the payload parses to a list of items. -/
inductive CrossrefPayload where
  | malformed
  | items (its : List RawItem)
deriving DecidableEq

/-- The outcome of one query of the loop in `collect_stories`: either
`fetch` raised, or it returned a payload. -/
inductive QueryOutcome where
  | fetchFailure
  | fetched (payload : CrossrefPayload)
deriving DecidableEq

/-- The control flow of the query loop: a fetch failure is caught by the
`except Exception: continue` guard and the query is skipped, but a payload
on which `parse_crossref_items` raises (malformed JSON) aborts the run —
that call sits outside the `try` block. -/
def gatherItems : List QueryOutcome → Except Unit (List RawItem)
  | [] => .ok []
  | .fetchFailure :: rest => gatherItems rest
  | .fetched .malformed :: _ => .error ()
  | .fetched (.items its) :: rest => (gatherItems rest).map (its ++ ·)

/-- `collect_stories()`, as a function of the per-query run outcomes:
`Except.error ()` models an exception propagating out of the function. -/
def collect_stories (runs : List QueryOutcome) : Except Unit (List Story) :=
  (gatherItems runs).map collect_from_items

/-! ### Output (`build_output`) -/

/-- The dict rendered per story by `to_dict` inside `build_output` — the
`government`/`nonprofit` flags are not serialized. -/
structure OutStory where
  title : String
  short_title : String
  url : String
  source : String
  published_at : String
  sentiment : String
deriving DecidableEq

/-- `to_dict(story)` from `build_output`. -/
def to_dict (story : Story) : OutStory :=
  { title := story.title
    short_title := story.short_title
    url := story.url
    source := story.source
    published_at := story.published_at
    sentiment := story.sentiment }

/-- The output document. -/
structure OutputDoc where
  updated_at : String
  government : List OutStory
  nonprofit : List OutStory
deriving DecidableEq

/-- `build_output(stories)` from the source; `now_iso` is the rendered
`datetime.now(timezone.utc).isoformat()`. -/
def build_output (now_iso : String) (stories : List Story) : OutputDoc :=
  { updated_at := now_iso
    government :=
      ((stories.filter (fun s => s.government)).take MAX_STORIES_PER_COLUMN).map to_dict
    nonprofit :=
      ((stories.filter (fun s => s.nonprofit)).take MAX_STORIES_PER_COLUMN).map to_dict }

/-! ### Specification companions

These definitions are not part of the translated source; they name, for use
in theorem statements, the relations and intermediate sequences the claims
speak about. -/

/-- The ordering the output lists are claimed to satisfy, on `Story`:
the earlier entry's `published_at` is ≥ the later one's. -/
def storyDescRel (a b : Story) : Prop :=
  pyStrLe b.published_at a.published_at = true

/-- The same ordering on rendered output entries. -/
def outDescRel (a b : OutStory) : Prop :=
  pyStrLe b.published_at a.published_at = true

/-- The subsequence of items that the `collect_stories` loop accepts:
an item is accepted when its dedup key is not yet seen and
`normalize_story` returns a story; exactly then its key is added to the
seen set.  This mirrors the loop of `collectItemsAux`, recording the
accepted items themselves. -/
def acceptedItems (seen : List String) : List RawItem → List RawItem
  | [] => []
  | item :: rest =>
    if seen.contains (dedup_key item) then acceptedItems seen rest
    else
      match normalize_story item with
      | none => acceptedItems seen rest
      | some _ => item :: acceptedItems (dedup_key item :: seen) rest

/-! ### Concrete inputs used by counterexamples and witnesses -/

def d2021 : PyDateTime := { year := 2021, month := 3, day := 5 }

/-- An item that classifies successfully (government, negative). -/
def itemG : RawItem :=
  { title := "City corruption probe"
    url := "https://example.org/g1"
    doi := "10.1/g1"
    published_at := d2021
    source := "Journal"
    abstract := "" }

/-- An item the classifier rejects (no sentiment keyword). -/
def dupA : RawItem :=
  { title := "Hello world"
    url := "https://example.org/dup"
    doi := ""
    published_at := d2021
    source := "Journal"
    abstract := "" }

/-- A second rejected item with the same dedup key as `dupA`. -/
def dupB : RawItem :=
  { title := "Some other words"
    url := "https://example.org/dup"
    doi := ""
    published_at := d2021
    source := "Journal"
    abstract := "" }

/-- An accepted item sharing `dupA`'s dedup key. -/
def dupC : RawItem :=
  { title := "City corruption probe"
    url := "https://example.org/dup"
    doi := ""
    published_at := d2021
    source := "Journal"
    abstract := "" }

/-- The story `normalize_story` produces for `dupC`. -/
def dupCStory : Story :=
  { title := "City corruption probe"
    short_title := "City corruption probe"
    url := "https://example.org/dup"
    source := "Journal"
    published_at := "2021-03-05T00:00:00+00:00"
    sentiment := "negative"
    government := true
    nonprofit := false }

/-- The concrete item of claim C3 (the claim supplies no URL; a non-empty
one is required for the item to survive, so one is filled in). -/
def c3raw : RawItem :=
  { title := "Foundation Adopts New Ethics Rules After Audit"
    url := "https://example.org/a"
    doi := ""
    published_at := d2021
    source := "Regional News"
    abstract := "" }

/-- The story `normalize_story` actually produces for `c3raw`. -/
def c3story : Story :=
  { title := "Foundation Adopts New Ethics Rules After Audit"
    short_title := "Foundation Adopts New Ethics Rules After Audit"
    url := "https://example.org/a"
    source := "Regional News"
    published_at := "2021-03-05T00:00:00+00:00"
    sentiment := "negative"
    government := false
    nonprofit := true }

/-- A whitespace-collapsed title of 96 characters — one over the limit. -/
def c5title : String := ⟨List.replicate 96 'a'⟩

/-- A business-only item (contains "stock" and "merger", no
government/nonprofit term). -/
def bizItem : RawItem :=
  { title := "Stock merger talks"
    url := "https://example.org/b"
    doi := ""
    published_at := d2021
    source := "Daily"
    abstract := "" }

/-- A concrete `now` for date-resolution witnesses. -/
def nowW : PyDateTime := { year := 2026, month := 1, day := 1 }

/-- A work-date record whose online date is present. -/
def wOnline : CrossrefWorkDates :=
  { publishedOnline := some (.dictParts (.list [.nums [2021, 5]]))
    publishedPrint := none
    published := none
    created := some (.dictParts (.list [.nums [2020]])) }

/-- A concrete collected story list for the ordering witness. -/
def c8stories : List Story := collect_from_items [dupC, itemG]

/-- A concrete run producing `c8stories`. -/
def c8runs : List QueryOutcome :=
  [QueryOutcome.fetched (CrossrefPayload.items [dupC, itemG])]

/-- A story carrying both category flags, for the bounding witness. -/
def storyG : Story :=
  { title := "T"
    short_title := "T"
    url := "u"
    source := "s"
    published_at := "2021-01-01T00:00:00+00:00"
    sentiment := "negative"
    government := true
    nonprofit := true }

/-! ### Helper lemmas: Python string comparison and the stable sort -/

theorem pyCharsLe_total (a b : List Char) :
    pyCharsLe a b = true ∨ pyCharsLe b a = true := by
  induction a generalizing b with
  | nil => left; rfl
  | cons x xs ih =>
    cases b with
    | nil => right; rfl
    | cons y ys =>
      rcases lt_trichotomy x y with h | h | h
      · left; simp [pyCharsLe, h]
      · subst h
        rcases ih ys with h' | h'
        · left; simp [pyCharsLe, h']
        · right; simp [pyCharsLe, h']
      · right; simp [pyCharsLe, h]

theorem pyCharsLe_trans {a b c : List Char} (h₁ : pyCharsLe a b = true)
    (h₂ : pyCharsLe b c = true) : pyCharsLe a c = true := by
  induction a generalizing b c with
  | nil => rfl
  | cons x xs ih =>
    cases b with
    | nil => simp [pyCharsLe] at h₁
    | cons y ys =>
      cases c with
      | nil => simp [pyCharsLe] at h₂
      | cons z zs =>
        rcases lt_trichotomy x y with hxy | hxy | hxy
        · rcases lt_trichotomy y z with hyz | hyz | hyz
          · simp [pyCharsLe, lt_trans hxy hyz]
          · subst hyz; simp [pyCharsLe, hxy]
          · rcases lt_trichotomy x z with hxz | hxz | hxz
            · simp [pyCharsLe, hxz]
            · subst hxz; simp [pyCharsLe, hyz, lt_asymm hyz] at h₂
            · simp [pyCharsLe, hyz, lt_asymm hyz] at h₂
        · subst hxy
          rcases lt_trichotomy x z with hxz | hxz | hxz
          · simp [pyCharsLe, hxz]
          · subst hxz
            simp only [pyCharsLe, lt_irrefl, if_false] at h₁ h₂ ⊢
            exact ih h₁ h₂
          · simp [pyCharsLe, hxz, lt_asymm hxz] at h₂
        · simp [pyCharsLe, hxy, lt_asymm hxy] at h₁

theorem pyStrLe_total (a b : String) :
    pyStrLe a b = true ∨ pyStrLe b a = true :=
  pyCharsLe_total a.data b.data

theorem pyStrLe_trans {a b c : String} (h₁ : pyStrLe a b = true)
    (h₂ : pyStrLe b c = true) : pyStrLe a c = true :=
  pyCharsLe_trans h₁ h₂

theorem mem_insertStoryDesc {x s : Story} {l : List Story} :
    x ∈ insertStoryDesc s l ↔ x = s ∨ x ∈ l := by
  induction l with
  | nil => simp [insertStoryDesc]
  | cons t rest ih =>
    by_cases h : pyStrLe t.published_at s.published_at = true
    · simp [insertStoryDesc, h]
    · simp only [insertStoryDesc, if_neg h, List.mem_cons, ih]
      tauto

theorem pairwise_insertStoryDesc {s : Story} {l : List Story}
    (h : l.Pairwise storyDescRel) :
    (insertStoryDesc s l).Pairwise storyDescRel := by
  induction l with
  | nil => simp [insertStoryDesc, storyDescRel]
  | cons t rest ih =>
    rw [List.pairwise_cons] at h
    by_cases hle : pyStrLe t.published_at s.published_at = true
    · rw [insertStoryDesc, if_pos hle, List.pairwise_cons]
      refine ⟨?_, (List.pairwise_cons).mpr h⟩
      intro u hu
      rcases List.mem_cons.mp hu with rfl | hu'
      · exact hle
      · exact pyStrLe_trans (h.1 u hu') hle
    · rw [insertStoryDesc, if_neg hle, List.pairwise_cons]
      refine ⟨?_, ih h.2⟩
      intro u hu
      rcases mem_insertStoryDesc.mp hu with rfl | hu'
      · rcases pyStrLe_total t.published_at u.published_at with h' | h'
        · exact absurd h' hle
        · exact h'
      · exact h.1 u hu'

theorem pairwise_sortStoriesDesc (l : List Story) :
    (sortStoriesDesc l).Pairwise storyDescRel := by
  induction l with
  | nil => exact List.Pairwise.nil
  | cons x xs ih => exact pairwise_insertStoryDesc ih

theorem mem_sortStoriesDesc {x : Story} {l : List Story} :
    x ∈ sortStoriesDesc l ↔ x ∈ l := by
  induction l with
  | nil => simp [sortStoriesDesc]
  | cons t rest ih =>
    show x ∈ insertStoryDesc t (sortStoriesDesc rest) ↔ _
    rw [mem_insertStoryDesc, ih]
    simp

/-! ### Helper lemmas: the collection loop -/

theorem collectItemsAux_snd (items : List RawItem) :
    ∀ seen acc, (collectItemsAux seen acc items).2
      = acc ++ (acceptedItems seen items).filterMap normalize_story := by
  induction items with
  | nil => intro seen acc; simp [collectItemsAux, acceptedItems]
  | cons item rest ih =>
    intro seen acc
    by_cases hseen : dedup_key item ∈ seen
    · simp [collectItemsAux, acceptedItems, hseen, ih]
    · rcases hnorm : normalize_story item with _ | story
      · simp [collectItemsAux, acceptedItems, hseen, hnorm, ih]
      · simp [collectItemsAux, acceptedItems, hseen, hnorm, ih]

theorem collectItemsAux_fst (items : List RawItem) :
    ∀ seen acc, (collectItemsAux seen acc items).1
      = ((acceptedItems seen items).map dedup_key).reverse ++ seen := by
  induction items with
  | nil => intro seen acc; simp [collectItemsAux, acceptedItems]
  | cons item rest ih =>
    intro seen acc
    by_cases hseen : dedup_key item ∈ seen
    · simp [collectItemsAux, acceptedItems, hseen, ih]
    · rcases hnorm : normalize_story item with _ | story
      · simp [collectItemsAux, acceptedItems, hseen, hnorm, ih]
      · simp [collectItemsAux, acceptedItems, hseen, hnorm, ih]

theorem acceptedItems_subset {i : RawItem} :
    ∀ {seen : List String} {items : List RawItem},
      i ∈ acceptedItems seen items → i ∈ items := by
  intro seen items
  induction items generalizing seen with
  | nil => simp [acceptedItems]
  | cons item rest ih =>
    intro h
    by_cases hseen : seen.contains (dedup_key item) = true
    · rw [acceptedItems, if_pos hseen] at h
      exact List.mem_cons_of_mem _ (ih h)
    · rcases hnorm : normalize_story item with _ | story
      · rw [acceptedItems, if_neg hseen, hnorm] at h
        exact List.mem_cons_of_mem _ (ih h)
      · rw [acceptedItems, if_neg hseen, hnorm] at h
        rcases List.mem_cons.mp h with rfl | h'
        · exact List.mem_cons_self _ _
        · exact List.mem_cons_of_mem _ (ih h')

theorem acceptedItems_ok {i : RawItem} :
    ∀ {seen : List String} {items : List RawItem},
      i ∈ acceptedItems seen items → normalize_story i ≠ none := by
  intro seen items
  induction items generalizing seen with
  | nil => simp [acceptedItems]
  | cons item rest ih =>
    intro h
    by_cases hseen : seen.contains (dedup_key item) = true
    · rw [acceptedItems, if_pos hseen] at h
      exact ih h
    · rcases hnorm : normalize_story item with _ | story
      · rw [acceptedItems, if_neg hseen, hnorm] at h
        exact ih h
      · rw [acceptedItems, if_neg hseen, hnorm] at h
        rcases List.mem_cons.mp h with rfl | h'
        · simp [hnorm]
        · exact ih h'

theorem acceptedItems_key_unseen {i : RawItem} :
    ∀ {seen : List String} {items : List RawItem},
      i ∈ acceptedItems seen items → dedup_key i ∉ seen := by
  intro seen items
  induction items generalizing seen with
  | nil => simp [acceptedItems]
  | cons item rest ih =>
    intro h
    by_cases hseen : seen.contains (dedup_key item) = true
    · rw [acceptedItems, if_pos hseen] at h
      exact ih h
    · rcases hnorm : normalize_story item with _ | story
      · rw [acceptedItems, if_neg hseen, hnorm] at h
        exact ih h
      · rw [acceptedItems, if_neg hseen, hnorm] at h
        rcases List.mem_cons.mp h with rfl | h'
        · intro hmem
          exact hseen (List.elem_iff.mpr hmem)
        · intro hmem
          exact ih h' (List.mem_cons_of_mem _ hmem)

theorem acceptedItems_keys_distinct :
    ∀ {seen : List String} (items : List RawItem),
      (acceptedItems seen items).Pairwise
        (fun i j => dedup_key i ≠ dedup_key j) := by
  intro seen items
  induction items generalizing seen with
  | nil => exact List.Pairwise.nil
  | cons item rest ih =>
    by_cases hseen : seen.contains (dedup_key item) = true
    · rw [acceptedItems, if_pos hseen]; exact ih
    · rcases hnorm : normalize_story item with _ | story
      · rw [acceptedItems, if_neg hseen, hnorm]; exact ih
      · rw [acceptedItems, if_neg hseen, hnorm, List.pairwise_cons]
        refine ⟨?_, ih⟩
        intro j hj heq
        exact acceptedItems_key_unseen hj (heq ▸ List.mem_cons_self _ _)

theorem acceptedItems_append (l₁ : List RawItem) :
    ∀ (seen : List String) (l₂ : List RawItem),
      acceptedItems seen (l₁ ++ l₂)
        = acceptedItems seen l₁
          ++ acceptedItems
              (((acceptedItems seen l₁).map dedup_key).reverse ++ seen) l₂ := by
  induction l₁ with
  | nil => intro seen l₂; simp [acceptedItems]
  | cons item rest ih =>
    intro seen l₂
    by_cases hseen : dedup_key item ∈ seen
    · simp [acceptedItems, hseen, ih]
    · rcases hnorm : normalize_story item with _ | story
      · simp [acceptedItems, hseen, hnorm, ih]
      · simp [acceptedItems, hseen, hnorm, ih, List.append_assoc]

theorem collect_from_items_eq (items : List RawItem) :
    collect_from_items items
      = sortStoriesDesc ((acceptedItems [] items).filterMap normalize_story) := by
  simp [collect_from_items, collectItemsAux_snd]

theorem mem_collect_from_items {s : Story} {items : List RawItem} :
    s ∈ collect_from_items items
      ↔ ∃ i ∈ acceptedItems [] items, normalize_story i = some s := by
  rw [collect_from_items_eq, mem_sortStoriesDesc, List.mem_filterMap]

theorem accepted_first_win {l₁ : List RawItem} {x : RawItem} (l₂ : List RawItem)
    (hrej : ∀ i ∈ l₁, dedup_key i = dedup_key x → normalize_story i = none)
    (hacc : normalize_story x ≠ none) :
    x ∈ acceptedItems [] (l₁ ++ x :: l₂) := by
  rw [acceptedItems_append]
  refine List.mem_append.mpr (Or.inr ?_)
  have hmem : dedup_key x ∉ ((acceptedItems [] l₁).map dedup_key).reverse ++ ([] : List String) := by
    intro hmem
    rw [List.append_nil, List.mem_reverse, List.mem_map] at hmem
    obtain ⟨j, hj, hkey⟩ := hmem
    exact acceptedItems_ok hj (hrej j (acceptedItems_subset hj) hkey)
  rw [acceptedItems, if_neg (fun hc => hmem (List.elem_iff.mp hc))]
  rcases hnorm : normalize_story x with _ | story
  · exact absurd hnorm hacc
  · exact List.mem_cons_self _ _

theorem classify_sentiment_vals {t v : String} (h : classify_sentiment t = some v) :
    v = "negative" ∨ v = "positive" := by
  unfold classify_sentiment at h
  split at h
  · exact Or.inl (Option.some.inj h).symm
  · split at h
    · exact Or.inr (Option.some.inj h).symm
    · cases h

theorem normalize_story_sentiment {raw : RawItem} {s : Story}
    (h : normalize_story raw = some s) :
    s.sentiment = "negative" ∨ s.sentiment = "positive" := by
  unfold normalize_story at h
  split at h
  · cases h
  · dsimp only at h
    split at h
    · cases h
    · split at h
      · cases h
      · rename_i sentiment hclass
        split at h
        · cases h
        · cases h
          exact classify_sentiment_vals hclass

theorem gatherItems_skip (l₁ l₂ : List QueryOutcome) :
    gatherItems (l₁ ++ QueryOutcome.fetchFailure :: l₂) = gatherItems (l₁ ++ l₂) := by
  induction l₁ with
  | nil => rfl
  | cons r rest ih =>
    cases r with
    | fetchFailure => simpa [gatherItems] using ih
    | fetched p =>
      cases p with
      | malformed => rfl
      | items its => simp [gatherItems, ih]

theorem gatherItems_malformed {l₁ : List QueryOutcome} (l₂ : List QueryOutcome)
    (h : ∀ r ∈ l₁, r ≠ QueryOutcome.fetched CrossrefPayload.malformed) :
    gatherItems (l₁ ++ QueryOutcome.fetched CrossrefPayload.malformed :: l₂)
      = Except.error () := by
  induction l₁ with
  | nil => rfl
  | cons r rest ih =>
    have hr := h r (List.mem_cons_self _ _)
    have ht : ∀ x ∈ rest, x ≠ QueryOutcome.fetched CrossrefPayload.malformed :=
      fun x hx => h x (List.mem_cons_of_mem _ hx)
    cases r with
    | fetchFailure => simpa [gatherItems] using ih ht
    | fetched p =>
      cases p with
      | malformed => exact absurd rfl hr
      | items its => simp [gatherItems, ih ht, Except.map]

/-! ### Claim C1 -/

/-- Claim C1, counterexample: a query whose payload is present but is not
valid JSON is not skipped — the whole run fails (`Except.error`), while a
genuine fetch failure in the same position is skipped and the run
succeeds. -/
theorem claim_C1_counterexample :
    collect_stories [QueryOutcome.fetched CrossrefPayload.malformed,
        QueryOutcome.fetched (CrossrefPayload.items [itemG])]
      = Except.error ()
    ∧ collect_stories [QueryOutcome.fetchFailure,
        QueryOutcome.fetched (CrossrefPayload.items [itemG])]
      = Except.ok (collect_from_items [itemG]) :=
  ⟨rfl, rfl⟩

/-- Claim C1 (amended): the per-query guard catches fetch failures, which
are skipped with the run continuing unchanged; but an exception raised
while parsing a fetched payload (malformed JSON) is raised outside that
guard, so it propagates out of `collect_stories` and aborts the whole
run. -/
theorem claim_C1_amended :
    (∀ l₁ l₂ : List QueryOutcome,
        collect_stories (l₁ ++ QueryOutcome.fetchFailure :: l₂)
          = collect_stories (l₁ ++ l₂))
    ∧ (∀ l₁ l₂ : List QueryOutcome,
        (∀ r ∈ l₁, r ≠ QueryOutcome.fetched CrossrefPayload.malformed) →
        collect_stories (l₁ ++ QueryOutcome.fetched CrossrefPayload.malformed :: l₂)
          = Except.error ()) := by
  constructor
  · intro l₁ l₂
    simp [collect_stories, gatherItems_skip]
  · intro l₁ l₂ h
    simp [collect_stories, gatherItems_malformed l₂ h, Except.map]

/-- Witness for claim C1's amended theorem at concrete runs. -/
theorem claim_C1_witness :
    collect_stories ([] ++ QueryOutcome.fetchFailure
        :: [QueryOutcome.fetched (CrossrefPayload.items [itemG])])
      = collect_stories ([] ++ [QueryOutcome.fetched (CrossrefPayload.items [itemG])])
    ∧ collect_stories ([QueryOutcome.fetchFailure]
        ++ QueryOutcome.fetched CrossrefPayload.malformed :: [])
      = Except.error () :=
  ⟨claim_C1_amended.1 [] [QueryOutcome.fetched (CrossrefPayload.items [itemG])],
   claim_C1_amended.2 [QueryOutcome.fetchFailure] [] (by decide)⟩

/-! ### Claim C2 -/

/-- Claim C2, counterexample: two items share a dedup key, yet no story
with that key survives (both are rejected by the classifier), refuting
"exactly one survives, namely the one from the first such item". -/
theorem claim_C2_counterexample :
    dedup_key dupA = dedup_key dupB ∧ dupA ≠ dupB
    ∧ collect_from_items [dupA, dupB] = [] := by
  refine ⟨rfl, by decide, by decide⟩

/-- Claim C2 (amended): at most one item per dedup key is accepted into
the collected output (accepted items have pairwise-distinct keys, and the
output is exactly the stories of the accepted items, sorted); the
surviving item for a key is the first item with that key that the
classifier accepts — earlier same-key items must all have been
rejected. -/
theorem claim_C2_amended :
    (∀ items : List RawItem,
        (acceptedItems [] items).Pairwise (fun i j => dedup_key i ≠ dedup_key j))
    ∧ (∀ items : List RawItem,
        collect_from_items items
          = sortStoriesDesc ((acceptedItems [] items).filterMap normalize_story))
    ∧ (∀ (l₁ : List RawItem) (x : RawItem) (l₂ : List RawItem),
        (∀ i ∈ l₁, dedup_key i = dedup_key x → normalize_story i = none) →
        normalize_story x ≠ none →
        x ∈ acceptedItems [] (l₁ ++ x :: l₂)) :=
  ⟨fun items => acceptedItems_keys_distinct items,
   collect_from_items_eq,
   fun _ _ l₂ h hx => accepted_first_win l₂ h hx⟩

/-- Witness for claim C2's amended theorem: the accepted sharer of a key
whose earlier bearer was rejected. -/
theorem claim_C2_witness :
    dupC ∈ acceptedItems [] ([dupA] ++ dupC :: []) :=
  claim_C2_amended.2.2 [dupA] dupC [] (by decide) (by decide)

/-! ### Claim C3 -/

/-- Claim C3, counterexample: on the item with title "Foundation Adopts
New Ethics Rules After Audit" and source "Regional News" the classifier
assigns sentiment "negative", not "positive". -/
theorem claim_C3_counterexample :
    (normalize_story c3raw).map Story.sentiment = some "negative"
    ∧ (normalize_story c3raw).map Story.sentiment ≠ some "positive" := by
  decide

/-- Claim C3 (amended): for that item the Classifier assigns sentiment
"negative" — the word "ethics" is a negative keyword and the negative
check precedes the positive one, overriding the positive matches "new
ethics rules"/"adopts ethics" — and nonprofit=true (matching
"foundation"), government=false, and the item is not discarded. -/
theorem claim_C3_amended : normalize_story c3raw = some c3story := by
  decide

/-! ### Claim C4 -/

/-- Claim C4: sentiment classification returns "negative" whenever any
negative keyword matches (regardless of positive matches), else
"positive" when a positive keyword matches, else no sentiment (the item
is discarded); and every story in the collected output has sentiment
"negative" or "positive". -/
theorem claim_C4 :
    (∀ text : String, contains_any text NEGATIVE_KEYWORDS = true →
        classify_sentiment text = some "negative")
    ∧ (∀ text : String, contains_any text NEGATIVE_KEYWORDS = false →
        contains_any text POSITIVE_KEYWORDS = true →
        classify_sentiment text = some "positive")
    ∧ (∀ text : String, contains_any text NEGATIVE_KEYWORDS = false →
        contains_any text POSITIVE_KEYWORDS = false →
        classify_sentiment text = none)
    ∧ (∀ (items : List RawItem) (s : Story), s ∈ collect_from_items items →
        s.sentiment = "negative" ∨ s.sentiment = "positive") := by
  refine ⟨?_, ?_, ?_, ?_⟩
  · intro t h
    simp [classify_sentiment, h]
  · intro t h1 h2
    simp [classify_sentiment, h1, h2]
  · intro t h1 h2
    simp [classify_sentiment, h1, h2]
  · intro items s hs
    obtain ⟨i, _, hnorm⟩ := mem_collect_from_items.mp hs
    exact normalize_story_sentiment hnorm

/-- Witness for claim C4 at concrete texts, including the tie-break. -/
theorem claim_C4_witness :
    classify_sentiment "fraud transparency" = some "negative"
    ∧ classify_sentiment "reform" = some "positive" :=
  ⟨claim_C4.1 "fraud transparency" (by decide),
   claim_C4.2.1 "reform" (by decide) (by decide)⟩

/-! ### Claim C5 -/

/-- Claim C5: the claim is what the code intends (`limit - 1` leaves room
for exactly one appended character) but the code appends the three
characters U+00E2 U+20AC U+00A6 — a mis-encoded ellipsis — instead of
"…".  On a whitespace-collapsed title of 96 characters `short_title`
returns 97 characters (exceeding 95), ending in the three-character
mojibake rather than an ellipsis. -/
theorem claim_C5_bug :
    (short_title c5title).length = 97
    ∧ ¬ (short_title c5title).length ≤ 95
    ∧ (short_title c5title).data.drop 94 = ['â', '€', '¦']
    ∧ (short_title c5title).data.getLast? ≠ some '…' := by
  decide

/-! ### Claim C6 -/

/-- Claim C6: a text (title-source-abstract concatenation, lowercased)
containing a business-domain term but no government-domain and no
nonprofit-domain term is discarded: `normalize_story` returns none. -/
theorem claim_C6 :
    ∀ raw : RawItem,
      contains_any (pyLower (raw.title ++ " " ++ raw.source ++ " " ++ raw.abstract))
        BUSINESS_TERMS = true →
      contains_any (pyLower (raw.title ++ " " ++ raw.source ++ " " ++ raw.abstract))
        GOVERNMENT_TERMS = false →
      contains_any (pyLower (raw.title ++ " " ++ raw.source ++ " " ++ raw.abstract))
        NONPROFIT_TERMS = false →
      normalize_story raw = none := by
  intro raw hb hg hn
  unfold normalize_story
  split
  · rfl
  · dsimp only
    rw [if_pos]
    simp [should_skip_business_only, hb, hg, hn]

/-- Witness for claim C6: an item whose text contains "stock" and
"merger" and no government/nonprofit term yields no story. -/
theorem claim_C6_witness : normalize_story bizItem = none :=
  claim_C6 bizItem (by decide) (by decide) (by decide)

/-! ### Claim C7 -/

/-- Claim C7: the publication timestamp is resolved by trying the four
date fields in priority order (online, print, generic published, record
creation); a `(year[, month[, day]])` tuple defaults missing month and
day to 1; and a resolved year outside `[1900, now.year + 1]` is replaced
with the current UTC time. -/
theorem claim_C7 :
    (∀ (now : PyDateTime) (w : CrossrefWorkDates),
        (pyTruthy w.publishedOnline = true →
          resolve_published_at now w = parse_date_parts now w.publishedOnline)
        ∧ (pyTruthy w.publishedOnline = false → pyTruthy w.publishedPrint = true →
          resolve_published_at now w = parse_date_parts now w.publishedPrint)
        ∧ (pyTruthy w.publishedOnline = false → pyTruthy w.publishedPrint = false →
          pyTruthy w.published = true →
          resolve_published_at now w = parse_date_parts now w.published)
        ∧ (pyTruthy w.publishedOnline = false → pyTruthy w.publishedPrint = false →
          pyTruthy w.published = false →
          resolve_published_at now w = parse_date_parts now w.created))
    ∧ (∀ (now : PyDateTime) (y : Int),
        parse_date_parts now (some (.dictParts (.list [.nums [y]])))
          = parse_date_parts now (some (.dictParts (.list [.nums [y, 1, 1]]))))
    ∧ (∀ (now : PyDateTime) (y m : Int),
        parse_date_parts now (some (.dictParts (.list [.nums [y, m]])))
          = parse_date_parts now (some (.dictParts (.list [.nums [y, m, 1]]))))
    ∧ (∀ (now : PyDateTime) (y m d : Int),
        y < 1900 ∨ now.year + 1 < y →
        parse_date_parts now (some (.dictParts (.list [.nums [y, m, d]]))) = now) := by
  refine ⟨?_, ?_, ?_, ?_⟩
  · intro now w
    refine ⟨?_, ?_, ?_, ?_⟩
    · intro h1
      simp [resolve_published_at, h1]
    · intro h1 h2
      simp [resolve_published_at, h1, h2]
    · intro h1 h2 h3
      simp [resolve_published_at, h1, h2, h3]
    · intro h1 h2 h3
      simp [resolve_published_at, h1, h2, h3]
  · intro now y
    rfl
  · intro now y m
    rfl
  · intro now y m d h
    unfold parse_date_parts
    by_cases hv : validYMD y m d = true
    · rcases h with h | h
      · simp [hv, h]
      · simp [hv, h]
    · simp [hv]

/-- Witness for claim C7: with the online date present it is the one
used, and a year of 1800 falls back to the current time. -/
theorem claim_C7_witness :
    resolve_published_at nowW wOnline = parse_date_parts nowW wOnline.publishedOnline
    ∧ parse_date_parts nowW (some (.dictParts (.list [.nums [1800, 1, 1]]))) = nowW :=
  ⟨(claim_C7.1 nowW wOnline).1 (by decide),
   claim_C7.2.2.2 nowW 1800 1 1 (by decide)⟩

/-! ### Claim C8 -/

/-- Claim C8: in any completed run, each output category list is sorted
newest first: every adjacent pair satisfies
`published_at[i] >= published_at[i+1]` (Python string order on the ISO
timestamps, which the code sorts by). -/
theorem claim_C8 :
    ∀ (runs : List QueryOutcome) (now_iso : String) (stories : List Story),
      collect_stories runs = Except.ok stories →
      (build_output now_iso stories).government.Chain' outDescRel
      ∧ (build_output now_iso stories).nonprofit.Chain' outDescRel := by
  intro runs now_iso stories h
  obtain ⟨items, rfl⟩ : ∃ items, stories = collect_from_items items := by
    unfold collect_stories at h
    cases hg : gatherItems runs with
    | error e =>
      rw [hg] at h
      cases h
    | ok items =>
      rw [hg] at h
      exact ⟨items, (Except.ok.inj h).symm⟩
  have hp : (collect_from_items items).Pairwise storyDescRel :=
    pairwise_sortStoriesDesc _
  constructor
  · apply List.Pairwise.chain'
    rw [build_output, List.pairwise_map]
    exact ((hp.filter _).take).imp (fun hab => hab)
  · apply List.Pairwise.chain'
    rw [build_output, List.pairwise_map]
    exact ((hp.filter _).take).imp (fun hab => hab)

/-- Witness for claim C8 at a concrete run. -/
theorem claim_C8_witness :
    (build_output "2026-01-01T00:00:00+00:00" c8stories).government.Chain' outDescRel
    ∧ (build_output "2026-01-01T00:00:00+00:00" c8stories).nonprofit.Chain' outDescRel :=
  claim_C8 c8runs "2026-01-01T00:00:00+00:00" c8stories rfl

/-! ### Claim C9 -/

/-- Claim C9: each output category list has at most 60 entries, and each
is taken from the front of the (globally sorted) story list restricted to
that category — element `i` of the output equals element `i` of the full
filtered sequence. -/
theorem claim_C9 :
    ∀ (now_iso : String) (stories : List Story),
      (build_output now_iso stories).government.length ≤ 60
      ∧ (build_output now_iso stories).nonprofit.length ≤ 60
      ∧ (∀ i : Nat, i < (build_output now_iso stories).government.length →
          (build_output now_iso stories).government.get? i
            = ((stories.filter (fun s => s.government)).map to_dict).get? i)
      ∧ (∀ i : Nat, i < (build_output now_iso stories).nonprofit.length →
          (build_output now_iso stories).nonprofit.get? i
            = ((stories.filter (fun s => s.nonprofit)).map to_dict).get? i) := by
  intro now_iso stories
  refine ⟨?_, ?_, ?_, ?_⟩
  · simp only [build_output, List.length_map, List.length_take,
      MAX_STORIES_PER_COLUMN]
    exact min_le_left _ _
  · simp only [build_output, List.length_map, List.length_take,
      MAX_STORIES_PER_COLUMN]
    exact min_le_left _ _
  · intro i hi
    simp only [build_output, List.length_map, List.length_take,
      MAX_STORIES_PER_COLUMN] at hi ⊢
    rw [List.get?_map, List.get?_take (lt_of_lt_of_le hi (min_le_left _ _)),
      List.get?_map]
  · intro i hi
    simp only [build_output, List.length_map, List.length_take,
      MAX_STORIES_PER_COLUMN] at hi ⊢
    rw [List.get?_map, List.get?_take (lt_of_lt_of_le hi (min_le_left _ _)),
      List.get?_map]

/-- Witness for claim C9 at a concrete story list. -/
theorem claim_C9_witness :
    (build_output "t" [storyG]).government.length ≤ 60
    ∧ (build_output "t" [storyG]).government.get? 0
        = (([storyG].filter (fun s => s.government)).map to_dict).get? 0 :=
  ⟨(claim_C9 "t" [storyG]).1, (claim_C9 "t" [storyG]).2.2.1 0 (by decide)⟩

/-! ### Claim C10 -/

/-- Claim C10: a dedup key enters the seen-key set only through an item
that was accepted (`normalize_story` returned a story); consequently if
every earlier bearer of a key was rejected, a later accepted bearer of
the same key is not blocked and its story appears in the collected
output. -/
theorem claim_C10 :
    (∀ (items : List RawItem) (k : String),
        k ∈ (collectItemsAux [] [] items).1 →
        ∃ i ∈ items, dedup_key i = k ∧ normalize_story i ≠ none)
    ∧ (∀ (l₁ : List RawItem) (x : RawItem) (l₂ : List RawItem) (s : Story),
        (∀ i ∈ l₁, dedup_key i = dedup_key x → normalize_story i = none) →
        normalize_story x = some s →
        s ∈ collect_from_items (l₁ ++ x :: l₂)) := by
  constructor
  · intro items k hk
    rw [collectItemsAux_fst, List.append_nil, List.mem_reverse, List.mem_map] at hk
    obtain ⟨i, hi, rfl⟩ := hk
    exact ⟨i, acceptedItems_subset hi, rfl, acceptedItems_ok hi⟩
  · intro l₁ x l₂ s hrej hx
    refine mem_collect_from_items.mpr ⟨x, accepted_first_win l₂ hrej ?_, hx⟩
    simp [hx]

/-- Witness for claim C10: the first bearer of the key is rejected, and
the later accepted bearer's story reaches the output. -/
theorem claim_C10_witness :
    dupCStory ∈ collect_from_items ([dupA] ++ dupC :: []) :=
  claim_C10.2 [dupA] dupC [] dupCStory (by decide) (by decide)

end EthicsFeed
